import Mathlib

set_option maxRecDepth 8000

/-!
Shallow embedding of BrainstormGPT (src/main.py).

The remote generation service is abstracted as an oracle `respond` mapping
each call (with the arguments the script passes) to `some` generated text or
`none` (a raised generation error).  The tiktoken encoder is abstracted as a
count `enc : String -> Nat` of the encoded length of a string, which is all
`compute_total_tokens` uses.  File writes are collected in order instead of
performed.  The debating `while` loop is modelled with explicit fuel, since
its termination is one of the properties under study.
-/

/-- Python `str.strip()`: remove leading and trailing whitespace, modelled
over the underlying character list. -/
def pyStrip (s : String) : String :=
  String.mk (((s.data.dropWhile Char.isWhitespace).reverse.dropWhile
    Char.isWhitespace).reverse)

/-- Python `"\n".join(messages)`. -/
def joinNL : List String → String
  | [] => ""
  | [m] => m
  | m :: ms => m ++ "\n" ++ joinNL ms

/-- `compute_total_tokens` (src/main.py, lines 77-89): the number of tokens of
the newline-joined messages, for the abstract encoder `enc`. -/
def compute_total_tokens (messages : List String) (enc : String → Nat) : Nat :=
  enc (joinNL messages)

/-- The `{additional}` block interpolated into the prompt templates:
`f"\nAdditional Information: {additional}" if additional != "" else ""`. -/
def additionalBlock (additional : String) : String :=
  if additional = "" then "" else "\nAdditional Information: " ++ additional

/-- `brainstorming_prompt` (src/main.py, lines 6-18) after `.format`;
`additional` is the already-formatted block. -/
def brainstorming_prompt (problem additional : String) : String :=
  "You are a superhuman AI problem solver working with another superhuman AI agent to solve the following problem:\n\nProblem: "
    ++ problem ++ additional
    ++ "\n\nYour task is to critically analyze and critique the solution put forth by your partner agent. You should identify the flaws in your partner\x27s plan and suggest rigorous improvements to their ideas.\n\nEngage in a productive conversation and brainstorm a solution together. Do not agree with everything your partner says; challenge your partner\x27s ideas aggressively and rigorously critique the proposed ideas. Build on your partner\x27s ideas if they are sound and propose new ideas.\n\nDo not reiterate what your partner has said already. Only propose new ideas and critique your partner.\n\nYour ultimate goal is to work together to develop a completely sound and full-proof proposal to solve the problem."

/-- `synthesis_prompt` (src/main.py, lines 21-31) after `.format`. -/
def synthesis_prompt (problem additional conversation : String) : String :=
  "Problem: " ++ problem ++ additional
    ++ "\n\nThe following is a conversation between two superhuman AI agents trying to solve the above problem:\n\n### CONVERSATION START ###\n"
    ++ conversation
    ++ "\n### CONVERSATION END ###\n\nSynthesize the above conversation into an extremely detailed, coherent, complete proposal to solve the problem."

/-- The report-reformatting prompt (src/main.py, line 172). -/
def report_prompt (synthesis : String) : String :=
  "###START REPORT\n" ++ synthesis
    ++ "\n###END REPORT\n\nReformat the above write-up via HTML into a professional-looking report. Use Times New Roman\n<!DOCTYPE html>"

/-- The seed-generation prompt (src/main.py, lines 116-118). -/
def seed_prompt (problem additional : String) : String :=
  if additional = "" then
    "Given the following problem, propose a solution.\n\nProblem: " ++ problem
      ++ "\n\nProposed solution:"
  else
    "Given the following problem and additional information, propose a solution.\n\nProblem: "
      ++ problem ++ "\n\nAdditional Information: " ++ additional ++ "\n\nProposed solution:"

/-- The role-tagging loop of `chat_GPT` (src/main.py, lines 63-67), with `i`
the index of the first remaining message: message `i` is tagged `user` when
`i % 2 == (0 if starter == "user" else 1)`, else `assistant`. -/
def chat_roles_go (starter : String) : Nat → List String → List (String × String)
  | _, [] => []
  | i, m :: ms =>
    (if i % 2 = (if starter = "user" then 0 else 1) then ("user", m)
     else ("assistant", m)) :: chat_roles_go starter (i + 1) ms

/-- The full message sequence `chat_GPT` sends (src/main.py, lines 61-67):
a system message holding `systemPrompt`, then the role-tagged history. -/
def chat_messages (inputMessages : List String) (systemPrompt starter : String) :
    List (String × String) :=
  ("system", systemPrompt) :: chat_roles_go starter 0 inputMessages

/-- `chat_GPT` (src/main.py, lines 45-75): builds the role-tagged message
sequence and returns the newest generated text, i.e. what the remote chat
completion `create` yields on those messages. -/
def chat_GPT (create : List (String × String) → String)
    (inputMessages : List String) (systemPrompt starter : String) : String :=
  create (chat_messages inputMessages systemPrompt starter)

/-- One remote call of the script with the arguments passed at the call site:
a one-shot completion (`query_GPT`) or a chat completion (`chat_GPT`).
`maxTokens` is an `Int`, as the Python subtractions can go negative. -/
inductive RCall where
  | complete (prompt : String) (maxTokens : Int)
  | chat (history : List String) (systemPrompt : String) (starter : String) (maxTokens : Int)
deriving DecidableEq

/-- `context_len` selection (src/main.py, lines 103-106): recognized engines
map to a context ceiling; any other engine leaves `context_len` unassigned,
modelled as `none`. -/
def context_len (engine : String) : Option Nat :=
  if engine = "gpt-3.5-turbo" then some 4000
  else if engine = "gpt-4" then some 8000
  else none

/-- The debating `while` loop (src/main.py, lines 129-142), with explicit
`fuel` (`none` = fuel exhausted before the loop finished).  Returns the calls
made so far appended to `acc`, the final message list, and whether the run
aborted with a generation error.  Each iteration computes
`max_tokens = max_len - compute_total_tokens(messages)` once, issues the
starter="user" call, appends the stripped reply, issues the
starter="assistant" call with the same `max_tokens`, appends the stripped
reply, and breaks when that reply is shorter than 50 characters. -/
def debatingLoop (enc : String → Nat) (respond : RCall → Option String)
    (maxLen : Int) (activePrompt : String) :
    Nat → List String → List RCall → Option (List RCall × List String × Bool)
  | 0, _, _ => none
  | fuel + 1, msgs, acc =>
    if (compute_total_tokens msgs enc : Int) < maxLen then
      let maxTokens : Int := maxLen - (compute_total_tokens msgs enc : Int)
      let c1 : RCall := RCall.chat msgs activePrompt "user" maxTokens
      match respond c1 with
      | none => some (acc ++ [c1], msgs, true)
      | some r1 =>
        let a1 := pyStrip r1
        let msgs1 := msgs ++ [a1]
        let c2 : RCall := RCall.chat msgs1 activePrompt "assistant" maxTokens
        match respond c2 with
        | none => some (acc ++ [c1, c2], msgs1, true)
        | some r2 =>
          let a2 := pyStrip r2
          let msgs2 := msgs1 ++ [a2]
          if a2.length < 50 then
            some (acc ++ [c1, c2], msgs2, false)
          else
            debatingLoop enc respond maxLen activePrompt fuel msgs2 (acc ++ [c1, c2])
    else
      some (acc, msgs, false)

/-- The flattening loop (src/main.py, lines 147-148 and 163-164): message at
index `i` is rendered `f"Agent {i % 2 + 1}: {message}\n\n"`. -/
def convList : Nat → List String → String
  | _, [] => ""
  | i, m :: ms =>
    "Agent " ++ toString (i % 2 + 1) ++ ": " ++ m ++ "\n\n" ++ convList (i + 1) ms

/-- The header written at the top of conversation.txt and synthesis.txt
(src/main.py, lines 162 and 168). -/
def convHeader (problem additional seed : String) : String :=
  "Problem: " ++ problem ++ "\n\nAdditional Information: " ++ additional
    ++ "\n\nProposed Solution: " ++ seed ++ "\n\n"

/-- The full content of conversation.txt (src/main.py, lines 161-164). -/
def exportConversation (problem additional seed : String) (msgs : List String) : String :=
  convHeader problem additional seed ++ convList 0 msgs

/-- The result of a run: the remote calls attempted in order, the files
written in order (name, content), the final message list, and whether the
run aborted with an uncaught exception. -/
structure RunOut where
  calls : List RCall
  files : List (String × String)
  transcript : List String
  failed : Bool
deriving DecidableEq

/-- The synthesis and report stage (src/main.py, lines 144-176), entered after
the debating loop ends normally.  `contextLen` is the possibly-unassigned
`context_len`; evaluating `context_len - len(...)` with it unassigned raises
a NameError before the synthesis call is issued.  conversation.txt and
synthesis.txt are written only after the synthesis call succeeds, and
report.html only after the report call succeeds. -/
def postDebate (enc : String → Nat) (respond : RCall → Option String)
    (contextLen : Option Nat) (problem additional seed : String)
    (msgs : List String) (calls1 : List RCall) : RunOut :=
  let conversation := pyStrip (convList 0 msgs)
  let activePrompt := synthesis_prompt problem (additionalBlock additional) conversation
  match contextLen with
  | none => ⟨calls1, [], msgs, true⟩
  | some cl =>
    let cSyn : RCall := RCall.complete activePrompt ((cl : Int) - (enc activePrompt : Int))
    match respond cSyn with
    | none => ⟨calls1 ++ [cSyn], [], msgs, true⟩
    | some rawSyn =>
      let synthesis := pyStrip rawSyn
      let convFile := exportConversation problem additional seed msgs
      let synFile := convHeader problem additional seed ++ "Synthesis: " ++ synthesis ++ "\n\n"
      let cRep : RCall := RCall.complete (report_prompt synthesis)
        ((cl : Int) - (enc synthesis : Int))
      match respond cRep with
      | none =>
        ⟨calls1 ++ [cSyn, cRep],
         [("conversation.txt", convFile), ("synthesis.txt", synFile)], msgs, true⟩
      | some html =>
        ⟨calls1 ++ [cSyn, cRep],
         [("conversation.txt", convFile), ("synthesis.txt", synFile),
          ("report.html", html)], msgs, false⟩

/-- The run from the seeded transcript on: the debating loop over `[seed]`
followed by the synthesis and report stage (src/main.py, lines 124-176). -/
def runCore (enc : String → Nat) (respond : RCall → Option String)
    (contextLen : Option Nat) (maxLen : Int) (problem additional seed : String)
    (fuel : Nat) (calls0 : List RCall) : Option RunOut :=
  match debatingLoop enc respond maxLen
      (brainstorming_prompt problem (additionalBlock additional)) fuel [seed] calls0 with
  | none => none
  | some (calls1, msgs, true) => some ⟨calls1, [], msgs, true⟩
  | some (calls1, msgs, false) =>
    some (postDebate enc respond contextLen problem additional seed msgs calls1)

/-- The whole `__main__` run after the interactive prompts (src/main.py,
lines 103-176): `context_len` selection, optional seed generation (a
`query_GPT` call with the default `max_tokens=512`, stripped), then
`runCore`. -/
def runMain (enc : String → Nat) (respond : RCall → Option String)
    (engine : String) (maxLen : Int) (problem additional seed0 : String)
    (fuel : Nat) : Option RunOut :=
  if seed0 = "" then
    let c0 : RCall := RCall.complete (seed_prompt problem additional) 512
    match respond c0 with
    | none => some ⟨[c0], [], [], true⟩
    | some raw =>
      runCore enc respond (context_len engine) maxLen problem additional (pyStrip raw) fuel [c0]
  else
    runCore enc respond (context_len engine) maxLen problem additional seed0 fuel []

/-- An encoder in which appending a further message to the newline-joined
transcript strictly increases the count (every appended turn contributes at
least one token). -/
def strictNL (enc : String → Nat) : Prop :=
  ∀ s t : String, enc s < enc (s ++ "\n" ++ t)

/-- The debating loop never finishes on its own from `msgs`, whatever fuel it
is given. -/
def loopDiverges (enc : String → Nat) (respond : RCall → Option String)
    (maxLen : Int) (activePrompt : String) (msgs : List String) : Prop :=
  ∀ fuel acc, debatingLoop enc respond maxLen activePrompt fuel msgs acc = none

/-- A 50-character reply with no surrounding whitespace. -/
def fiftyChars : String := "aaaaaaaaaaaaaaaaaaaaaaaaaaaaaaaaaaaaaaaaaaaaaaaaaa"

/-- An oracle that always answers with a 50-character reply. -/
def respondLong : RCall → Option String := fun _ => some fiftyChars

/-- A concrete successful oracle: starter="user" chat calls produce
"alpha response", starter="assistant" chat calls produce "beta" (short, so
the loop stops after one iteration), completions produce "done". -/
def respondOk : RCall → Option String
  | RCall.chat _ _ st _ => some (if st = "user" then "alpha response" else "beta")
  | RCall.complete _ _ => some "done"

/-- A concrete oracle whose chat calls succeed but whose completion calls
(synthesis, report) raise a generation error. -/
def respondSynFail : RCall → Option String
  | RCall.chat _ _ st _ => some (if st = "user" then "alpha response" else "beta")
  | RCall.complete _ _ => none

/-- A concrete oracle in which only the report completion fails: chat calls
and the synthesis completion (whose prompt begins "Problem: ") succeed, while
the report completion (whose prompt begins "###START REPORT") raises a
generation error. -/
def respondRepFail : RCall → Option String
  | RCall.chat _ _ st _ => some (if st = "user" then "alpha response" else "beta")
  | RCall.complete p _ => if p.data.take 1 = ['#'] then none else some "done"

/-! ### Line-level machinery for the conversation-file round trip

The exported conversation file is a single string; the re-parser promised by
the round-trip property works on its lines.  Lines are computed over the
character list underlying the string, so that the round-trip proof can
proceed by structural induction. -/

/-- Split a character list at every newline; always returns at least one
(possibly empty) line. -/
def linesOf : List Char → List (List Char)
  | [] => [[]]
  | c :: cs =>
    if c = '\n' then [] :: linesOf cs
    else
      match linesOf cs with
      | [] => [[c]]
      | h :: t => (c :: h) :: t

/-- Rejoin lines with newlines: the inverse of `linesOf`. -/
def joinLines : List (List Char) → List Char
  | [] => []
  | [l] => l
  | l :: ls => l ++ '\n' :: joinLines ls

/-- The characters of the label `"Agent 1: "`. -/
def labelChars1 : List Char := ("Agent 1: " : String).data

/-- The characters of the label `"Agent 2: "`. -/
def labelChars2 : List Char := ("Agent 2: " : String).data

/-- A line that opens an agent entry in the conversation file. -/
def isLabelLine (l : List Char) : Bool :=
  labelChars1.isPrefixOf l || labelChars2.isPrefixOf l

/-- Remove the 9-character `"Agent N: "` label from a label line. -/
def stripLabel (l : List Char) : List Char := l.drop 9

/-- Drop the empty lines at the end of a collected entry (they come from the
`"\n\n"` separators, not from the message). -/
def dropTrailingEmpty : List (List Char) → List (List Char)
  | [] => []
  | x :: xs =>
    match dropTrailingEmpty xs with
    | [] => if x = [] then [] else [x]
    | y :: ys => x :: y :: ys

/-- A collected entry as a message: trailing blank lines dropped, the rest
rejoined with newlines. -/
def closeEntry (lines : List (List Char)) : String :=
  String.mk (joinLines (dropTrailingEmpty lines))

/-- Modelled from the spec: the repository has no parser for the exported
conversation file, but the spec's round-trip property (section 8) speaks of
re-parsing its `Agent N:`-labeled lines.  A label line opens a new entry with
the rest of that line; subsequent unlabeled lines belong to the open entry;
lines before the first label (the header) are skipped.  `cur` is the entry
being collected, if any. -/
def parseEntries : List (List Char) → Option (List (List Char)) → List (List (List Char))
  | [], none => []
  | [], some cur => [cur]
  | l :: ls, none =>
    if isLabelLine l then parseEntries ls (some [stripLabel l])
    else parseEntries ls none
  | l :: ls, some cur =>
    if isLabelLine l then cur :: parseEntries ls (some [stripLabel l])
    else parseEntries ls (some (cur ++ [l]))

/-- Modelled from the spec: re-parse the `Agent N:`-labeled entries of an
exported conversation file into the sequence of message contents. -/
def parseConversation (s : String) : List String :=
  (parseEntries (linesOf s.data) none).map closeEntry

/-- No line of `s` begins with an `"Agent N: "` label. -/
def noLabelLines (s : String) : Prop :=
  ∀ l ∈ linesOf s.data, isLabelLine l = false

/-- A message the round trip can recover: no line of it begins with an agent
label, and it does not end with a newline (the script appends stripped
messages, which never do). -/
def goodMessage (m : String) : Prop :=
  noLabelLines m ∧ m.data.getLast? ≠ some '\n'

instance (s : String) : Decidable (noLabelLines s) :=
  inferInstanceAs (Decidable (∀ l ∈ linesOf s.data, isLabelLine l = false))

instance (m : String) : Decidable (goodMessage m) :=
  inferInstanceAs (Decidable (noLabelLines m ∧ m.data.getLast? ≠ some '\n'))

/-! ### Helper lemmas -/

theorem joinNL_append_singleton (msgs : List String) (m : String) (h : msgs ≠ []) :
    joinNL (msgs ++ [m]) = joinNL msgs ++ "\n" ++ m := by
  induction msgs with
  | nil => exact absurd rfl h
  | cons x xs ih =>
    cases xs with
    | nil => simp [joinNL]
    | cons y ys =>
      have ih' := ih (by simp)
      calc joinNL ((x :: y :: ys) ++ [m])
          = x ++ "\n" ++ joinNL ((y :: ys) ++ [m]) := by rw [List.cons_append]; rfl
        _ = x ++ "\n" ++ (joinNL (y :: ys) ++ "\n" ++ m) := by rw [ih']
        _ = joinNL (x :: y :: ys) ++ "\n" ++ m := by
              simp [joinNL, String.append_assoc]

theorem debatingLoop_acc (enc : String → Nat) (respond : RCall → Option String)
    (maxLen : Int) (activePrompt : String) :
    ∀ (fuel : Nat) (msgs : List String) (acc : List RCall)
      (out : List RCall × List String × Bool),
      debatingLoop enc respond maxLen activePrompt fuel msgs acc = some out →
      ∃ rest, out.1 = acc ++ rest := by
  intro fuel
  induction fuel with
  | zero => intro msgs acc out h; simp [debatingLoop] at h
  | succ fuel ih =>
    intro msgs acc out h
    rw [debatingLoop] at h
    by_cases hb : (compute_total_tokens msgs enc : Int) < maxLen
    · rw [if_pos hb] at h
      cases h1 : respond (RCall.chat msgs activePrompt "user"
          (maxLen - (compute_total_tokens msgs enc : Int))) with
      | none =>
        simp only [h1] at h
        exact ⟨_, by injection h with h'; rw [← h']⟩
      | some r1 =>
        simp only [h1] at h
        cases h2 : respond (RCall.chat (msgs ++ [pyStrip r1]) activePrompt "assistant"
            (maxLen - (compute_total_tokens msgs enc : Int))) with
        | none =>
          simp only [h2] at h
          exact ⟨_, by injection h with h'; rw [← h']⟩
        | some r2 =>
          simp only [h2] at h
          by_cases h50 : (pyStrip r2).length < 50
          · rw [if_pos h50] at h
            exact ⟨_, by injection h with h'; rw [← h']⟩
          · rw [if_neg h50] at h
            obtain ⟨rest, hr⟩ := ih _ _ _ h
            refine ⟨[RCall.chat msgs activePrompt "user"
                (maxLen - (compute_total_tokens msgs enc : Int)),
              RCall.chat (msgs ++ [pyStrip r1]) activePrompt "assistant"
                (maxLen - (compute_total_tokens msgs enc : Int))] ++ rest, ?_⟩
            rw [hr, List.append_assoc]
    · rw [if_neg hb] at h
      exact ⟨[], by injection h with h'; rw [← h']; simp⟩

/-! ### C1, C2: the debating iteration -/

/-- C1: in every DEBATING iteration (any state `msgs`, `acc` with the budget
condition true and both chat calls answered), if the just-appended stripped
Agent-2 turn is shorter than 50 characters the loop stops after that turn —
the run ends with exactly this iteration's two calls and no further iteration
— and if it is 50 characters or longer the loop continues: it equals the loop
restarted on the extended transcript, which re-checks the token budget at its
top. -/
theorem C1_termination_heuristic
    (enc : String → Nat) (respond : RCall → Option String) (maxLen : Int)
    (activePrompt : String) (fuel : Nat) (msgs : List String) (acc : List RCall)
    (r1 r2 : String)
    (hb : (compute_total_tokens msgs enc : Int) < maxLen)
    (h1 : respond (RCall.chat msgs activePrompt "user"
        (maxLen - (compute_total_tokens msgs enc : Int))) = some r1)
    (h2 : respond (RCall.chat (msgs ++ [pyStrip r1]) activePrompt "assistant"
        (maxLen - (compute_total_tokens msgs enc : Int))) = some r2) :
    ((pyStrip r2).length < 50 →
      debatingLoop enc respond maxLen activePrompt (fuel + 1) msgs acc =
        some (acc ++ [RCall.chat msgs activePrompt "user"
                (maxLen - (compute_total_tokens msgs enc : Int)),
              RCall.chat (msgs ++ [pyStrip r1]) activePrompt "assistant"
                (maxLen - (compute_total_tokens msgs enc : Int))],
          msgs ++ [pyStrip r1] ++ [pyStrip r2], false))
    ∧ (¬ (pyStrip r2).length < 50 →
      debatingLoop enc respond maxLen activePrompt (fuel + 1) msgs acc =
        debatingLoop enc respond maxLen activePrompt fuel
          (msgs ++ [pyStrip r1] ++ [pyStrip r2])
          (acc ++ [RCall.chat msgs activePrompt "user"
              (maxLen - (compute_total_tokens msgs enc : Int)),
            RCall.chat (msgs ++ [pyStrip r1]) activePrompt "assistant"
              (maxLen - (compute_total_tokens msgs enc : Int))])) := by
  constructor <;> intro h50
  · rw [debatingLoop, if_pos hb]
    simp only [h1, h2, if_pos h50]
  · rw [debatingLoop, if_pos hb]
    simp only [h1, h2, if_neg h50]

/-- Witness for C1 at a concrete run: one iteration with the budget condition
true and a short (4-character) Agent-2 reply stops the loop with exactly that
iteration's two calls. -/
theorem C1_termination_heuristic_w :
    debatingLoop String.length (fun _ => some "beta") 100 "p" 3 ["s"] [] =
      some ([RCall.chat ["s"] "p" "user" 99, RCall.chat ["s", "beta"] "p" "assistant" 99],
        ["s", "beta", "beta"], false) :=
  ((C1_termination_heuristic String.length (fun _ => some "beta") 100 "p" 2 ["s"] []
    "beta" "beta" (by decide) rfl rfl).1 (by decide)).trans (by decide)

/-- C2: within a single DEBATING iteration both chat calls — first
starter="user", then starter="assistant" on the transcript extended by the
Agent-1 turn — carry the same `max_tokens`, namely `max_len` minus the token
count of the transcript as it stood before the Agent-1 turn; the budget is
not recomputed between the two calls. -/
theorem C2_shared_budget
    (enc : String → Nat) (respond : RCall → Option String) (maxLen : Int)
    (activePrompt : String) (fuel : Nat) (msgs : List String) (acc : List RCall)
    (r1 : String)
    (hb : (compute_total_tokens msgs enc : Int) < maxLen)
    (h1 : respond (RCall.chat msgs activePrompt "user"
        (maxLen - (compute_total_tokens msgs enc : Int))) = some r1) :
    ∀ out, debatingLoop enc respond maxLen activePrompt (fuel + 1) msgs acc = some out →
      ∃ rest, out.1 =
        acc ++ [RCall.chat msgs activePrompt "user"
            (maxLen - (compute_total_tokens msgs enc : Int)),
          RCall.chat (msgs ++ [pyStrip r1]) activePrompt "assistant"
            (maxLen - (compute_total_tokens msgs enc : Int))] ++ rest := by
  intro out h
  rw [debatingLoop, if_pos hb] at h
  simp only [h1] at h
  cases h2 : respond (RCall.chat (msgs ++ [pyStrip r1]) activePrompt "assistant"
      (maxLen - (compute_total_tokens msgs enc : Int))) with
  | none =>
    simp only [h2] at h
    refine ⟨[], ?_⟩
    injection h with h'
    rw [← h']
    simp
  | some r2 =>
    simp only [h2] at h
    by_cases h50 : (pyStrip r2).length < 50
    · rw [if_pos h50] at h
      refine ⟨[], ?_⟩
      injection h with h'
      rw [← h']
      simp
    · rw [if_neg h50] at h
      obtain ⟨rest, hr⟩ := debatingLoop_acc enc respond maxLen activePrompt _ _ _ _ h
      exact ⟨rest, by rw [hr, List.append_assoc]⟩

/-- Witness for C2 at a concrete run: the two calls of the single iteration
share `max_tokens = 99`. -/
theorem C2_shared_budget_w :
    ∃ rest,
      (([RCall.chat ["s"] "p" "user" 99, RCall.chat ["s", "beta"] "p" "assistant" 99],
        ["s", "beta", "beta"], false) :
          List RCall × List String × Bool).1 =
        [] ++ [RCall.chat ["s"] "p" "user" 99, RCall.chat ["s", "beta"] "p" "assistant" 99]
          ++ rest :=
  C2_shared_budget String.length (fun _ => some "beta") 100 "p" 2 ["s"] [] "beta"
    (by decide) rfl
    ([RCall.chat ["s"] "p" "user" 99, RCall.chat ["s", "beta"] "p" "assistant" 99],
      ["s", "beta", "beta"], false) (by decide)

/-! ### C6: termination of the debating loop -/

theorem str_length_append (a b : String) : (a ++ b).length = a.length + b.length := by
  cases a; cases b
  simp [String.length, String.append]

theorem strictNL_length : strictNL String.length := by
  intro s t
  have h : (s ++ "\n" ++ t).length = s.length + "\n".length + t.length := by
    rw [str_length_append, str_length_append]
  have h1 : ("\n" : String).length = 1 := rfl
  omega

theorem debatingLoop_total (enc : String → Nat) (respond : RCall → Option String)
    (maxLen : Int) (activePrompt : String) (H : strictNL enc) :
    ∀ (f : Nat) (msgs : List String) (acc : List RCall), msgs ≠ [] →
      maxLen ≤ (compute_total_tokens msgs enc : Int) + 2 * (f : Int) →
      (debatingLoop enc respond maxLen activePrompt (f + 1) msgs acc).isSome = true := by
  intro f
  induction f with
  | zero =>
    intro msgs acc hne hle
    have hnb : ¬ (compute_total_tokens msgs enc : Int) < maxLen := by omega
    rw [debatingLoop, if_neg hnb]
    rfl
  | succ f ih =>
    intro msgs acc hne hle
    rw [debatingLoop]
    by_cases hb : (compute_total_tokens msgs enc : Int) < maxLen
    · rw [if_pos hb]
      cases h1 : respond (RCall.chat msgs activePrompt "user"
          (maxLen - (compute_total_tokens msgs enc : Int))) with
      | none => simp [h1]
      | some r1 =>
        simp only [h1]
        cases h2 : respond (RCall.chat (msgs ++ [pyStrip r1]) activePrompt "assistant"
            (maxLen - (compute_total_tokens msgs enc : Int))) with
        | none => simp [h2]
        | some r2 =>
          simp only [h2]
          by_cases h50 : (pyStrip r2).length < 50
          · rw [if_pos h50]
            rfl
          · rw [if_neg h50]
            apply ih _ _ (by simp)
            have k1 : enc (joinNL msgs) < enc (joinNL (msgs ++ [pyStrip r1])) := by
              rw [joinNL_append_singleton _ _ hne]
              exact H _ _
            have k2 : enc (joinNL (msgs ++ [pyStrip r1])) <
                enc (joinNL (msgs ++ [pyStrip r1] ++ [pyStrip r2])) := by
              rw [joinNL_append_singleton (msgs ++ [pyStrip r1]) _ (by simp)]
              exact H _ _
            unfold compute_total_tokens at hle ⊢
            omega
    · rw [if_neg hb]
      rfl

/-- C6 counterexample: with an encoder under which every reply contributes
zero tokens (count constantly 0, so each turn contributes "zero or more
tokens" as the claim allows) and 50-character replies that never trip the
short-reply break, the debating loop never finishes, whatever fuel it gets. -/
theorem C6_counterexample :
    loopDiverges (fun _ => 0) respondLong 1 "p" ["s"] := by
  have aux : ∀ (fuel : Nat) (msgs : List String) (acc : List RCall),
      debatingLoop (fun _ => 0) respondLong 1 "p" fuel msgs acc = none := by
    intro fuel
    induction fuel with
    | zero => intro msgs acc; rfl
    | succ f ih =>
      intro msgs acc
      rw [debatingLoop]
      have hb : ((compute_total_tokens msgs (fun _ => 0) : Nat) : Int) < 1 := by
        have : compute_total_tokens msgs (fun _ => 0) = 0 := rfl
        rw [this]
        decide
      rw [if_pos hb]
      simp only [respondLong]
      have h50 : ¬ (pyStrip fiftyChars).length < 50 := by decide
      rw [if_neg h50]
      exact ih _ _
  exact fun fuel acc => aux fuel ["s"] acc

/-- C6 (amended): the DEBATING loop terminates in finitely many iterations —
fuel `max_len.toNat + 1` always suffices — provided every appended turn
strictly increases the token count of the newline-joined transcript
(contributes at least one token).  Generation errors and short replies only
end the loop sooner.  Without that strictness (turns contributing zero
tokens, as the claim as stated allows), the loop can spin forever. -/
theorem C6_loop_terminates (enc : String → Nat) (respond : RCall → Option String)
    (maxLen : Int) (activePrompt : String) (msgs : List String) (acc : List RCall)
    (H : strictNL enc) (hne : msgs ≠ []) :
    (debatingLoop enc respond maxLen activePrompt (maxLen.toNat + 1) msgs acc).isSome
      = true := by
  apply debatingLoop_total enc respond maxLen activePrompt H maxLen.toNat msgs acc hne
  omega

/-- Witness for C6 at a concrete instance: the character-count encoder is
strictly increasing under appends, and the loop over seed `["s"]` with budget
7 finishes within fuel `7 + 1`. -/
theorem C6_loop_terminates_w :
    strictNL String.length ∧
      (debatingLoop String.length respondLong 7 "p" ((7 : Int).toNat + 1) ["s"] []).isSome
        = true :=
  ⟨strictNL_length,
    C6_loop_terminates String.length respondLong 7 "p" ["s"] [] strictNL_length
      (by decide)⟩

/-! ### C3: the chat message construction -/

theorem chat_roles_go_length (st : String) (i : Nat) (ms : List String) :
    (chat_roles_go st i ms).length = ms.length := by
  induction ms generalizing i with
  | nil => rfl
  | cons m ms ih => simp [chat_roles_go, ih]

theorem chat_roles_go_get (st : String) :
    ∀ (ms : List String) (i j : Nat) (hj : j < (chat_roles_go st i ms).length)
      (hj' : j < ms.length),
      (chat_roles_go st i ms).get ⟨j, hj⟩ =
        (if (i + j) % 2 = (if st = "user" then 0 else 1) then ("user", ms.get ⟨j, hj'⟩)
         else ("assistant", ms.get ⟨j, hj'⟩)) := by
  intro ms
  induction ms with
  | nil => intro i j hj hj'; simp at hj'
  | cons m ms ih =>
    intro i j hj hj'
    cases j with
    | zero => simp [chat_roles_go]
    | succ j =>
      have hg : j < (chat_roles_go st (i + 1) ms).length := by
        rw [chat_roles_go_length]
        exact Nat.lt_of_succ_lt_succ hj'
      simp only [chat_roles_go, List.get_cons_succ]
      rw [ih (i + 1) j hg (Nat.lt_of_succ_lt_succ hj')]
      have hadd : i + 1 + j = i + (j + 1) := by omega
      rw [hadd]

/-- C3: for every history `h` and starter role in {user, assistant}, the chat
operation sends a message list whose first element is the system message with
the given instruction, followed by exactly one message per element of `h` in
order, message `i` carrying the starter role when `i` is even and the
opposite role when `i` is odd; and it returns what the remote chat completion
generates on that sequence. -/
theorem C3_chat_message_construction
    (h : List String) (sys s : String) (create : List (String × String) → String)
    (hs : s = "user" ∨ s = "assistant") :
    (chat_messages h sys s).length = h.length + 1 ∧
    (chat_messages h sys s).head? = some ("system", sys) ∧
    (∀ (i : Nat) (hi : i < h.length) (hi2 : i + 1 < (chat_messages h sys s).length),
      (chat_messages h sys s).get ⟨i + 1, hi2⟩ =
        ((if i % 2 = 0 then s else if s = "user" then "assistant" else "user"),
          h.get ⟨i, hi⟩)) ∧
    chat_GPT create h sys s = create (chat_messages h sys s) := by
  refine ⟨by simp [chat_messages, chat_roles_go_length], rfl, ?_, rfl⟩
  intro i hi hi2
  have hg : i < (chat_roles_go s 0 h).length := by
    rw [chat_roles_go_length]
    exact hi
  simp only [chat_messages, List.get_cons_succ]
  rw [chat_roles_go_get s h 0 i hg hi]
  rcases hs with hs | hs <;> subst hs <;>
    rcases Nat.mod_two_eq_zero_or_one i with h2 | h2 <;>
    simp [Nat.zero_add, h2]

/-- Witness for C3 at a concrete history: with starter "user", the message
built from the odd-index element "bb" carries the role "assistant". -/
theorem C3_chat_message_construction_w :
    (chat_messages ["aa", "bb", "cc"] "sys" "user").get ⟨2, by decide⟩ =
      ("assistant", "bb") :=
  ((C3_chat_message_construction ["aa", "bb", "cc"] "sys" "user" (fun _ => "r")
    (Or.inl rfl)).2.2.1 1 (by decide) (by decide)).trans (by decide)

/-! ### C4: how the export labels the turns -/

/-- C4 (evidence of the labeling bug): a concrete completed run in which the
starter="user" chat call produced "alpha response" and the starter="assistant"
call produced "beta".  The exported conversation.txt (and the flattened
document, which uses the same `Agent [i mod 2 + 1]` rendering with the seed at
index 0) labels "alpha response" with "Agent 2: " and "beta" with
"Agent 1: " — the opposite of the agents that produced them, and the opposite
of the console labels the loop itself prints (src/main.py lines 133 and
137). -/
theorem C4_export_labels_swapped :
    runMain String.length respondOk "gpt-4" 100 "p" "" "s" 3 =
      some ⟨[RCall.chat ["s"] (brainstorming_prompt "p" (additionalBlock "")) "user" 99,
             RCall.chat ["s", "alpha response"]
               (brainstorming_prompt "p" (additionalBlock "")) "assistant" 99,
             RCall.complete
               (synthesis_prompt "p" (additionalBlock "")
                 "Agent 1: s\n\nAgent 2: alpha response\n\nAgent 1: beta")
               (8000 - ((synthesis_prompt "p" (additionalBlock "")
                 "Agent 1: s\n\nAgent 2: alpha response\n\nAgent 1: beta").length : Int)),
             RCall.complete (report_prompt "done") (8000 - 4)],
            [("conversation.txt",
              "Problem: p\n\nAdditional Information: \n\nProposed Solution: s\n\nAgent 1: s\n\nAgent 2: alpha response\n\nAgent 1: beta\n\n"),
             ("synthesis.txt",
              "Problem: p\n\nAdditional Information: \n\nProposed Solution: s\n\nSynthesis: done\n\n"),
             ("report.html", "done")],
            ["s", "alpha response", "beta"], false⟩ := by
  decide

/-! ### C5, C9: what survives a failing stage -/

theorem postDebate_export (enc : String → Nat) (respond : RCall → Option String)
    (contextLen : Option Nat) (problem additional seed : String)
    (msgs : List String) (calls1 : List RCall) :
    ((postDebate enc respond contextLen problem additional seed msgs calls1).files.map
        Prod.fst = [] ∨
     (postDebate enc respond contextLen problem additional seed msgs calls1).files.map
        Prod.fst = ["conversation.txt", "synthesis.txt"] ∨
     (postDebate enc respond contextLen problem additional seed msgs calls1).files.map
        Prod.fst = ["conversation.txt", "synthesis.txt", "report.html"]) ∧
    ((postDebate enc respond contextLen problem additional seed msgs calls1).failed
        = false →
      (postDebate enc respond contextLen problem additional seed msgs calls1).files.map
        Prod.fst = ["conversation.txt", "synthesis.txt", "report.html"]) := by
  unfold postDebate
  cases contextLen with
  | none => simp
  | some cl =>
    cases hsyn : respond (RCall.complete
        (synthesis_prompt problem (additionalBlock additional) (pyStrip (convList 0 msgs)))
        ((cl : Int) - (enc (synthesis_prompt problem (additionalBlock additional)
          (pyStrip (convList 0 msgs))) : Int))) with
    | none => simp [hsyn]
    | some rawSyn =>
      simp only [hsyn]
      cases hrep : respond (RCall.complete (report_prompt (pyStrip rawSyn))
          ((cl : Int) - (enc (pyStrip rawSyn) : Int))) with
      | none => simp [hrep]
      | some html => simp [hrep]

theorem runCore_export (enc : String → Nat) (respond : RCall → Option String)
    (contextLen : Option Nat) (maxLen : Int) (problem additional seed : String)
    (fuel : Nat) (calls0 : List RCall) (out : RunOut)
    (h : runCore enc respond contextLen maxLen problem additional seed fuel calls0
      = some out) :
    (out.files.map Prod.fst = [] ∨
     out.files.map Prod.fst = ["conversation.txt", "synthesis.txt"] ∨
     out.files.map Prod.fst = ["conversation.txt", "synthesis.txt", "report.html"]) ∧
    (out.failed = false →
      out.files.map Prod.fst = ["conversation.txt", "synthesis.txt", "report.html"]) := by
  unfold runCore at h
  cases hl : debatingLoop enc respond maxLen
      (brainstorming_prompt problem (additionalBlock additional)) fuel [seed] calls0 with
  | none => rw [hl] at h; exact absurd h (by simp)
  | some trip =>
    rw [hl] at h
    obtain ⟨calls1, msgs, b⟩ := trip
    cases b with
    | false =>
      simp only at h
      injection h with h'
      rw [← h']
      exact postDebate_export enc respond contextLen problem additional seed msgs calls1
    | true =>
      simp only at h
      injection h with h'
      rw [← h']
      simp

/-- C5 counterexample: a concrete run in which the synthesis completion fails.
The debate completed (three transcript messages exist), yet no file at all is
exported — conversation.txt is not written, because its export sits after the
synthesis call. -/
theorem C5_counterexample :
    (runMain String.length respondSynFail "gpt-4" 100 "p" "" "s" 3).map
      (fun o => (o.files, o.failed, o.transcript.length)) = some ([], true, 3) := by
  decide

/-- Envelope of the export gating over whole runs: whenever a run returns,
its exported files are nothing, or conversation.txt and synthesis.txt, or all
three files, in that write order; and a run that did not fail exported all
three. -/
theorem runMain_export_envelope (enc : String → Nat) (respond : RCall → Option String)
    (engine : String) (maxLen : Int) (problem additional seed0 : String)
    (fuel : Nat) (out : RunOut)
    (h : runMain enc respond engine maxLen problem additional seed0 fuel = some out) :
    (out.files.map Prod.fst = [] ∨
     out.files.map Prod.fst = ["conversation.txt", "synthesis.txt"] ∨
     out.files.map Prod.fst = ["conversation.txt", "synthesis.txt", "report.html"]) ∧
    (out.failed = false →
      out.files.map Prod.fst = ["conversation.txt", "synthesis.txt", "report.html"]) := by
  unfold runMain at h
  by_cases hs0 : seed0 = ""
  · rw [if_pos hs0] at h
    cases hc0 : respond (RCall.complete (seed_prompt problem additional) 512) with
    | none =>
      simp only [hc0] at h
      injection h with h'
      rw [← h']
      simp
    | some raw =>
      simp only [hc0] at h
      exact runCore_export _ _ _ _ _ _ _ _ _ _ h
  · rw [if_neg hs0] at h
    exact runCore_export _ _ _ _ _ _ _ _ _ _ h

/-- C5 (amended): writing conversation.txt depends on the synthesis call but
not on the report call.  For every synthesis-and-report stage: if the
synthesis completion fails, no file at all is exported (the exports sit after
that call) and the run fails; if the synthesis completion succeeds and the
report completion fails, conversation.txt and synthesis.txt are still
exported — they are written before the report call — and only report.html is
missing. -/
theorem C5_export_gating :
    ∀ (enc : String → Nat) (respond : RCall → Option String) (cl : Nat)
      (problem additional seed : String) (msgs : List String) (calls1 : List RCall),
      (respond (RCall.complete
          (synthesis_prompt problem (additionalBlock additional)
            (pyStrip (convList 0 msgs)))
          ((cl : Int) - (enc (synthesis_prompt problem (additionalBlock additional)
            (pyStrip (convList 0 msgs))) : Int))) = none →
        (postDebate enc respond (some cl) problem additional seed msgs calls1).files = []
          ∧ (postDebate enc respond (some cl) problem additional seed msgs calls1).failed
            = true) ∧
      (∀ rawSyn,
        respond (RCall.complete
            (synthesis_prompt problem (additionalBlock additional)
              (pyStrip (convList 0 msgs)))
            ((cl : Int) - (enc (synthesis_prompt problem (additionalBlock additional)
              (pyStrip (convList 0 msgs))) : Int))) = some rawSyn →
        respond (RCall.complete (report_prompt (pyStrip rawSyn))
            ((cl : Int) - (enc (pyStrip rawSyn) : Int))) = none →
        (postDebate enc respond (some cl) problem additional seed msgs calls1).files =
            [("conversation.txt", exportConversation problem additional seed msgs),
             ("synthesis.txt", convHeader problem additional seed ++ "Synthesis: "
               ++ pyStrip rawSyn ++ "\n\n")]
          ∧ (postDebate enc respond (some cl) problem additional seed msgs calls1).failed
            = true) := by
  intro enc respond cl problem additional seed msgs calls1
  constructor
  · intro hsyn
    unfold postDebate
    simp [hsyn]
  · intro rawSyn hsyn hrep
    unfold postDebate
    simp [hsyn, hrep]

/-- Witness for C5: a concrete full run in which only the report completion
fails.  The debate completes (three transcript messages), the synthesis call
succeeds, the report call fails — and conversation.txt and synthesis.txt are
exported all the same, with their full contents. -/
theorem C5_export_gating_w :
    (runMain String.length respondRepFail "gpt-4" 100 "p" "" "s" 3).map
      (fun o => (o.files, o.failed, o.transcript.length)) =
      some ([("conversation.txt",
              "Problem: p\n\nAdditional Information: \n\nProposed Solution: s\n\nAgent 1: s\n\nAgent 2: alpha response\n\nAgent 1: beta\n\n"),
             ("synthesis.txt",
              "Problem: p\n\nAdditional Information: \n\nProposed Solution: s\n\nSynthesis: done\n\n")],
            true, 3) := by
  decide

theorem runCore_none_ctx (enc : String → Nat) (respond : RCall → Option String)
    (maxLen : Int) (problem additional seed : String) (fuel : Nat)
    (calls0 : List RCall) (out : RunOut)
    (h : runCore enc respond none maxLen problem additional seed fuel calls0
      = some out) :
    out.failed = true ∧ out.files = [] := by
  unfold runCore at h
  cases hl : debatingLoop enc respond maxLen
      (brainstorming_prompt problem (additionalBlock additional)) fuel [seed] calls0 with
  | none => rw [hl] at h; exact absurd h (by simp)
  | some trip =>
    rw [hl] at h
    obtain ⟨calls1, msgs, b⟩ := trip
    cases b with
    | false =>
      simp only at h
      injection h with h'
      rw [← h']
      simp [postDebate]
    | true =>
      simp only at h
      injection h with h'
      rw [← h']
      exact ⟨rfl, rfl⟩

/-- C9 counterexample: with the unrecognized engine "foo", a concrete run
proceeds through the debating phase — two chat calls are attempted and
answered — and only then fails (the unassigned `context_len` is first used at
the synthesis stage); it does not fail at startup before remote calls. -/
theorem C9_counterexample :
    (runMain String.length respondOk "foo" 100 "p" "" "s" 3).map
      (fun o => (o.calls, o.files, o.failed)) =
      some ([RCall.chat ["s"] (brainstorming_prompt "p" (additionalBlock "")) "user" 99,
             RCall.chat ["s", "alpha response"]
               (brainstorming_prompt "p" (additionalBlock "")) "assistant" 99],
            [], true) := by
  decide

/-- C9 (amended): an unrecognized engine leaves `context_len` unassigned and
the run is not rejected at startup: the seeding and debating phases run
normally, and whenever the run returns it has failed — at the synthesis stage
when everything before succeeded, since that is where the unassigned ceiling
is first evaluated — with no file exported and no synthesis or report call
issued. -/
theorem C9_unrecognized_engine (enc : String → Nat) (respond : RCall → Option String)
    (engine : String) (maxLen : Int) (problem additional seed0 : String)
    (fuel : Nat) (out : RunOut)
    (hcl : context_len engine = none)
    (h : runMain enc respond engine maxLen problem additional seed0 fuel = some out) :
    out.failed = true ∧ out.files = [] := by
  unfold runMain at h
  rw [hcl] at h
  by_cases hs0 : seed0 = ""
  · rw [if_pos hs0] at h
    cases hc0 : respond (RCall.complete (seed_prompt problem additional) 512) with
    | none =>
      simp only [hc0] at h
      injection h with h'
      rw [← h']
      exact ⟨rfl, rfl⟩
    | some raw =>
      simp only [hc0] at h
      exact runCore_none_ctx _ _ _ _ _ _ _ _ _ h
  · rw [if_neg hs0] at h
    exact runCore_none_ctx _ _ _ _ _ _ _ _ _ h

/-- Witness for C9 at a concrete run: engine "foo" is unrecognized, the run
returns failed with no files. -/
theorem C9_unrecognized_engine_w :
    context_len "foo" = none ∧
      (RunOut.mk
        [RCall.chat ["s"] (brainstorming_prompt "p" (additionalBlock "")) "user" 4]
        [] ["s"] true).failed = true ∧
      (RunOut.mk
        [RCall.chat ["s"] (brainstorming_prompt "p" (additionalBlock "")) "user" 4]
        [] ["s"] true).files = [] :=
  ⟨rfl,
   C9_unrecognized_engine String.length (fun _ => none) "foo" 5 "p" "" "s" 2
     (RunOut.mk
       [RCall.chat ["s"] (brainstorming_prompt "p" (additionalBlock "")) "user" 4]
       [] ["s"] true)
     rfl (by decide)⟩

/-! ### C7, C8: the synthesis stage -/

/-- C7: when the token count of the seed alone already reaches `max_len`, the
debating loop body runs zero times: the final transcript is exactly `[seed]`,
no chat call is made, and the synthesis stage still runs on that
single-message transcript (followed by the report call and the three file
exports). -/
theorem C7_zero_turn_run (enc : String → Nat) (respond : RCall → Option String)
    (engine : String) (maxLen : Int) (problem additional seed : String)
    (fuel : Nat) (cl : Nat) (rawSyn html : String)
    (hseed : seed ≠ "")
    (hcl : context_len engine = some cl)
    (hbudget : maxLen ≤ (compute_total_tokens [seed] enc : Int))
    (hsyn : respond (RCall.complete
        (synthesis_prompt problem (additionalBlock additional)
          (pyStrip (convList 0 [seed])))
        ((cl : Int) - (enc (synthesis_prompt problem (additionalBlock additional)
          (pyStrip (convList 0 [seed]))) : Int))) = some rawSyn)
    (hrep : respond (RCall.complete (report_prompt (pyStrip rawSyn))
        ((cl : Int) - (enc (pyStrip rawSyn) : Int))) = some html) :
    runMain enc respond engine maxLen problem additional seed (fuel + 1) =
      some ⟨[RCall.complete
               (synthesis_prompt problem (additionalBlock additional)
                 (pyStrip (convList 0 [seed])))
               ((cl : Int) - (enc (synthesis_prompt problem (additionalBlock additional)
                 (pyStrip (convList 0 [seed]))) : Int)),
             RCall.complete (report_prompt (pyStrip rawSyn))
               ((cl : Int) - (enc (pyStrip rawSyn) : Int))],
            [("conversation.txt", exportConversation problem additional seed [seed]),
             ("synthesis.txt", convHeader problem additional seed ++ "Synthesis: "
               ++ pyStrip rawSyn ++ "\n\n"),
             ("report.html", html)],
            [seed], false⟩ := by
  have hnb : ¬ (compute_total_tokens [seed] enc : Int) < maxLen := by omega
  have hloop : debatingLoop enc respond maxLen
      (brainstorming_prompt problem (additionalBlock additional)) (fuel + 1) [seed] []
      = some ([], [seed], false) := by
    rw [debatingLoop, if_neg hnb]
  simp only [runMain, if_neg hseed, runCore, hloop, postDebate, hcl, hsyn, hrep]
  simp

/-- Witness for C7 at a concrete run: seed "abc" with character-count encoder
and budget 3 (the seed alone counts 3) yields a zero-turn debate whose
synthesis still runs. -/
theorem C7_zero_turn_run_w :
    runMain String.length (fun _ => some "done") "gpt-4" 3 "p" "" "abc" 1 =
      some ⟨[RCall.complete
               (synthesis_prompt "p" (additionalBlock "") "Agent 1: abc")
               (8000 - ((synthesis_prompt "p" (additionalBlock "")
                 "Agent 1: abc").length : Int)),
             RCall.complete (report_prompt "done") (8000 - 4)],
            [("conversation.txt", exportConversation "p" "" "abc" ["abc"]),
             ("synthesis.txt", convHeader "p" "" "abc" ++ "Synthesis: done\n\n"),
             ("report.html", "done")],
            ["abc"], false⟩ :=
  (C7_zero_turn_run String.length (fun _ => some "done") "gpt-4" 3 "p" "" "abc" 0
    8000 "done" "done" (by decide) rfl (by decide) rfl rfl).trans (by decide)

/-- C8: the synthesis completion is requested with
`max_tokens = context_len - count(full synthesis instruction)` and the report
completion with `max_tokens = context_len - count(synthesis text)` — the same
model ceiling, minus the instruction count for the first call and minus the
count of the stripped synthesis text alone for the second. -/
theorem C8_completion_sizing (enc : String → Nat) (respond : RCall → Option String)
    (cl : Nat) (problem additional seed : String) (msgs : List String)
    (calls1 : List RCall) (rawSyn : String)
    (hsyn : respond (RCall.complete
        (synthesis_prompt problem (additionalBlock additional) (pyStrip (convList 0 msgs)))
        ((cl : Int) - (enc (synthesis_prompt problem (additionalBlock additional)
          (pyStrip (convList 0 msgs))) : Int))) = some rawSyn) :
    (postDebate enc respond (some cl) problem additional seed msgs calls1).calls =
      calls1 ++
        [RCall.complete
          (synthesis_prompt problem (additionalBlock additional) (pyStrip (convList 0 msgs)))
          ((cl : Int) - (enc (synthesis_prompt problem (additionalBlock additional)
            (pyStrip (convList 0 msgs))) : Int)),
         RCall.complete (report_prompt (pyStrip rawSyn))
          ((cl : Int) - (enc (pyStrip rawSyn) : Int))] := by
  unfold postDebate
  simp only [hsyn]
  cases hrep : respond (RCall.complete (report_prompt (pyStrip rawSyn))
      ((cl : Int) - (enc (pyStrip rawSyn) : Int))) with
  | none => simp [hrep]
  | some html => simp [hrep]

/-- Witness for C8 at a concrete stage: ceiling 10, one-message transcript,
synthesis text "done": the two completion calls are sized
`10 - count(instruction)` and `10 - count("done")`. -/
theorem C8_completion_sizing_w :
    (postDebate String.length (fun _ => some "done") (some 10) "p" "" "s" ["s"] []).calls =
      [] ++
        [RCall.complete
          (synthesis_prompt "p" (additionalBlock "") (pyStrip (convList 0 ["s"])))
          ((10 : Int) - ((synthesis_prompt "p" (additionalBlock "")
            (pyStrip (convList 0 ["s"]))).length : Int)),
         RCall.complete (report_prompt (pyStrip "done"))
          ((10 : Int) - ((pyStrip "done").length : Int))] :=
  C8_completion_sizing String.length (fun _ => some "done") 10 "p" "" "s" ["s"] []
    "done" rfl

/-! ### C10: the conversation-file round trip -/

theorem linesOf_ne_nil (cs : List Char) : linesOf cs ≠ [] := by
  cases cs with
  | nil => simp [linesOf]
  | cons c cs =>
    rw [linesOf]
    by_cases hc : c = '\n'
    · simp [hc]
    · rw [if_neg hc]
      cases linesOf cs <;> simp

theorem linesOf_cons_of_ne (c : Char) (cs : List Char) (hc : c ≠ '\n') :
    ∀ h t, linesOf cs = h :: t → linesOf (c :: cs) = (c :: h) :: t := by
  intro h t he
  rw [linesOf, if_neg hc, he]

theorem linesOf_cons_newline (cs : List Char) :
    linesOf ('\n' :: cs) = [] :: linesOf cs := by
  rw [linesOf, if_pos rfl]

theorem linesOf_append_newline (a b : List Char) :
    linesOf (a ++ '\n' :: b) = linesOf a ++ linesOf b := by
  induction a with
  | nil => simp [linesOf_cons_newline, linesOf]
  | cons c a ih =>
    by_cases hc : c = '\n'
    · subst hc
      rw [List.cons_append, linesOf_cons_newline, linesOf_cons_newline, ih,
        List.cons_append]
    · obtain ⟨h, t, he⟩ := List.exists_cons_of_ne_nil (linesOf_ne_nil a)
      have e1 : linesOf (a ++ '\n' :: b) = h :: (t ++ linesOf b) := by
        rw [ih, he]
        rfl
      rw [List.cons_append, linesOf_cons_of_ne c _ hc _ _ e1,
        linesOf_cons_of_ne c a hc h t he]
      rfl

theorem linesOf_no_newline_append (a b : List Char) (h : List Char)
    (t : List (List Char)) (ha : ∀ c ∈ a, c ≠ '\n') (hb : linesOf b = h :: t) :
    linesOf (a ++ b) = (a ++ h) :: t := by
  induction a with
  | nil => simpa using hb
  | cons c a ih =>
    have hc : c ≠ '\n' := ha c (by simp)
    have ih' := ih (fun d hd => ha d (by simp [hd]))
    rw [List.cons_append, linesOf_cons_of_ne c _ hc _ _ ih']
    rfl

theorem joinLines_linesOf (cs : List Char) : joinLines (linesOf cs) = cs := by
  induction cs with
  | nil => rfl
  | cons c cs ih =>
    by_cases hc : c = '\n'
    · subst hc
      obtain ⟨h, t, he⟩ := List.exists_cons_of_ne_nil (linesOf_ne_nil cs)
      rw [linesOf_cons_newline, he]
      rw [he] at ih
      simpa [joinLines] using ih
    · obtain ⟨h, t, he⟩ := List.exists_cons_of_ne_nil (linesOf_ne_nil cs)
      rw [linesOf_cons_of_ne c cs hc h t he]
      rw [he] at ih
      cases t with
      | nil => simpa [joinLines] using congrArg (c :: ·) ih
      | cons u us =>
        simp only [joinLines] at ih ⊢
        rw [List.cons_append, ih]

theorem dropTrailingEmpty_append_empty (L : List (List Char)) :
    dropTrailingEmpty (L ++ [[]]) = dropTrailingEmpty L := by
  induction L with
  | nil => rfl
  | cons x L ih => simp only [List.cons_append, dropTrailingEmpty, List.append_eq, ih]

theorem dropTrailingEmpty_of_last (L : List (List Char)) (hL : L.getLast? ≠ some []) :
    dropTrailingEmpty L = L := by
  induction L with
  | nil => rfl
  | cons x L ih =>
    cases L with
    | nil =>
      have hx : x ≠ [] := by
        intro hx
        exact hL (by simp [hx])
      simp [dropTrailingEmpty, hx]
    | cons y ys =>
      have h2 : (y :: ys).getLast? ≠ some [] := by
        rwa [List.getLast?_cons_cons] at hL
      rw [dropTrailingEmpty, ih h2]

theorem linesOf_last_ne_empty (cs : List Char) (hcs : cs ≠ [])
    (hlast : cs.getLast? ≠ some '\n') : (linesOf cs).getLast? ≠ some [] := by
  induction cs with
  | nil => exact absurd rfl hcs
  | cons c cs ih =>
    cases cs with
    | nil =>
      have hc : c ≠ '\n' := by
        intro hc
        exact hlast (by simp [hc])
      simp [linesOf, hc]
    | cons d ds =>
      have h2 : (d :: ds).getLast? ≠ some '\n' := by
        rwa [List.getLast?_cons_cons] at hlast
      have ih' := ih (by simp) h2
      obtain ⟨h, t, he⟩ := List.exists_cons_of_ne_nil (linesOf_ne_nil (d :: ds))
      by_cases hc : c = '\n'
      · subst hc
        rw [linesOf_cons_newline, he]
        rw [he] at ih'
        rwa [List.getLast?_cons_cons]
      · rw [linesOf_cons_of_ne c _ hc _ _ he]
        rw [he] at ih'
        cases t with
        | nil => simp
        | cons u us =>
          rw [List.getLast?_cons_cons]
          rwa [List.getLast?_cons_cons] at ih'

theorem string_eta (s : String) : String.mk s.data = s := rfl

theorem closeEntry_message (m : String) (hm : m.data.getLast? ≠ some '\n') :
    closeEntry (linesOf m.data ++ [[]]) = m := by
  unfold closeEntry
  rw [dropTrailingEmpty_append_empty]
  by_cases hd : m.data = []
  · have hmk : m = "" := by
      cases m with
      | mk d =>
        have hd' : d = [] := hd
        subst hd'
        rfl
    subst hmk
    rfl
  · rw [dropTrailingEmpty_of_last _ (linesOf_last_ne_empty m.data hd hm)]
    rw [joinLines_linesOf]

theorem closeEntry_append_empty (q : List (List Char)) :
    closeEntry (q ++ [[]]) = closeEntry q := by
  unfold closeEntry
  rw [dropTrailingEmpty_append_empty]

theorem labelData_cases (i : Nat) :
    ("Agent " ++ toString (i % 2 + 1) ++ ": ").data = labelChars1 ∨
    ("Agent " ++ toString (i % 2 + 1) ++ ": ").data = labelChars2 := by
  rcases Nat.mod_two_eq_zero_or_one i with h | h <;> rw [h]
  · left; rfl
  · right; rfl

theorem isLabelLine_of_label (lab h0 : List Char)
    (hl : lab = labelChars1 ∨ lab = labelChars2) :
    isLabelLine (lab ++ h0) = true := by
  rcases hl with hl | hl <;> subst hl <;>
    simp [isLabelLine, List.isPrefixOf_iff_prefix, List.prefix_append]

theorem stripLabel_label (lab h0 : List Char)
    (hl : lab = labelChars1 ∨ lab = labelChars2) :
    stripLabel (lab ++ h0) = h0 := by
  rcases hl with hl | hl <;> subst hl
  · have h9 : labelChars1.length = 9 := rfl
    rw [stripLabel, ← h9, List.drop_left]
  · have h9 : labelChars2.length = 9 := rfl
    rw [stripLabel, ← h9, List.drop_left]

theorem label_no_newline (lab : List Char)
    (hl : lab = labelChars1 ∨ lab = labelChars2) : ∀ c ∈ lab, c ≠ '\n' := by
  rcases hl with hl | hl <;> subst hl <;> decide

theorem isLabelLine_nil : isLabelLine [] = false := rfl

theorem isLabelLine_ne_A (c : Char) (l : List Char) (hc : c ≠ 'A') :
    isLabelLine (c :: l) = false := by
  have h1 : labelChars1 = 'A' :: ("gent 1: " : String).data := rfl
  have h2 : labelChars2 = 'A' :: ("gent 2: " : String).data := rfl
  have hbeq : ('A' == c) = false := beq_eq_false_iff_ne.mpr fun h => hc h.symm
  simp [isLabelLine, h1, h2, List.isPrefixOf, hbeq]

theorem parseEntries_skip (ls rest : List (List Char))
    (h : ∀ l ∈ ls, isLabelLine l = false) :
    parseEntries (ls ++ rest) none = parseEntries rest none := by
  induction ls with
  | nil => rfl
  | cons l ls ih =>
    rw [List.cons_append, parseEntries,
      if_neg (by simp [h l (List.mem_cons_self l ls)])]
    exact ih fun x hx => h x (List.mem_cons_of_mem l hx)

theorem parseEntries_within (ls rest : List (List Char)) (cur : List (List Char))
    (h : ∀ l ∈ ls, isLabelLine l = false) :
    parseEntries (ls ++ rest) (some cur) = parseEntries rest (some (cur ++ ls)) := by
  induction ls generalizing cur with
  | nil => simp
  | cons l ls ih =>
    rw [List.cons_append, parseEntries,
      if_neg (by simp [h l (List.mem_cons_self l ls)]),
      ih (cur ++ [l]) fun x hx => h x (List.mem_cons_of_mem l hx),
      List.append_assoc]
    rfl

theorem convList_lines (i : Nat) (m : String) (ms : List String)
    (h0 : List Char) (t0 : List (List Char)) (he : linesOf m.data = h0 :: t0) :
    linesOf (convList i (m :: ms)).data =
      (("Agent " ++ toString (i % 2 + 1) ++ ": ").data ++ h0) ::
        (t0 ++ [] :: linesOf (convList (i + 1) ms).data) := by
  have hnn : ("\n\n" : String).data = ['\n', '\n'] := rfl
  have hdata : (convList i (m :: ms)).data =
      ((("Agent " ++ toString (i % 2 + 1) ++ ": ").data ++ m.data) ++
        '\n' :: ('\n' :: (convList (i + 1) ms).data)) := by
    show ("Agent " ++ toString (i % 2 + 1) ++ ": " ++ m ++ "\n\n"
      ++ convList (i + 1) ms).data = _
    simp [String.data_append, hnn]
  rw [hdata, linesOf_append_newline, linesOf_cons_newline,
    linesOf_no_newline_append _ m.data h0 t0
      (label_no_newline _ (labelData_cases i)) he]
  rfl

theorem parse_body_some (msgs : List String) :
    ∀ (i : Nat) (q : List (List Char)), (∀ m ∈ msgs, goodMessage m) →
      (parseEntries (linesOf (convList i msgs).data) (some q)).map closeEntry =
        closeEntry (q ++ [[]]) :: msgs := by
  induction msgs with
  | nil => intro i q _; rfl
  | cons m ms ih =>
    intro i q hm
    obtain ⟨h0, t0, he⟩ := List.exists_cons_of_ne_nil (linesOf_ne_nil m.data)
    have hgood := hm m (List.mem_cons_self m ms)
    have ht0 : ∀ l ∈ t0, isLabelLine l = false := by
      intro l hl
      exact hgood.1 l (by rw [he]; exact List.mem_cons_of_mem h0 hl)
    have hco : closeEntry (([h0] ++ t0 ++ [[]]) ++ [[]]) = m := by
      have e1 : ([h0] ++ t0 ++ [[]] : List (List Char)) ++ [[]]
          = ((h0 :: t0) ++ [[]]) ++ [[]] := by simp
      rw [e1, closeEntry_append_empty, ← he]
      exact closeEntry_message m hgood.2
    rw [convList_lines i m ms h0 t0 he, parseEntries,
      if_pos (isLabelLine_of_label _ h0 (labelData_cases i)),
      stripLabel_label _ h0 (labelData_cases i),
      parseEntries_within t0 _ [h0] ht0, parseEntries,
      if_neg (by simp [isLabelLine_nil]),
      List.map_cons,
      ih (i + 1) ([h0] ++ t0 ++ [[]]) fun x hx => hm x (List.mem_cons_of_mem m hx),
      hco, closeEntry_append_empty q]

theorem parse_body_none (i : Nat) (msgs : List String)
    (hm : ∀ m ∈ msgs, goodMessage m) :
    (parseEntries (linesOf (convList i msgs).data) none).map closeEntry = msgs := by
  cases msgs with
  | nil => rfl
  | cons m ms =>
    obtain ⟨h0, t0, he⟩ := List.exists_cons_of_ne_nil (linesOf_ne_nil m.data)
    have hgood := hm m (List.mem_cons_self m ms)
    have ht0 : ∀ l ∈ t0, isLabelLine l = false := by
      intro l hl
      exact hgood.1 l (by rw [he]; exact List.mem_cons_of_mem h0 hl)
    have hco : closeEntry (([h0] ++ t0 ++ [[]]) ++ [[]]) = m := by
      have e1 : ([h0] ++ t0 ++ [[]] : List (List Char)) ++ [[]]
          = ((h0 :: t0) ++ [[]]) ++ [[]] := by simp
      rw [e1, closeEntry_append_empty, ← he]
      exact closeEntry_message m hgood.2
    rw [convList_lines i m ms h0 t0 he, parseEntries,
      if_pos (isLabelLine_of_label _ h0 (labelData_cases i)),
      stripLabel_label _ h0 (labelData_cases i),
      parseEntries_within t0 _ [h0] ht0, parseEntries,
      if_neg (by simp [isLabelLine_nil]),
      parse_body_some ms (i + 1) ([h0] ++ t0 ++ [[]])
        fun x hx => hm x (List.mem_cons_of_mem m hx),
      hco]

theorem isLabelLine_cons2 (c d : Char) (l : List Char) (h : c ≠ 'A' ∨ d ≠ 'g') :
    isLabelLine (c :: d :: l) = false := by
  have h1 : labelChars1 = 'A' :: 'g' :: ("ent 1: " : String).data := rfl
  have h2 : labelChars2 = 'A' :: 'g' :: ("ent 2: " : String).data := rfl
  rcases h with h | h
  · have hbeq : ('A' == c) = false := beq_eq_false_iff_ne.mpr fun hh => h hh.symm
    simp [isLabelLine, h1, h2, List.isPrefixOf, hbeq]
  · have hbeq : ('g' == d) = false := beq_eq_false_iff_ne.mpr fun hh => h hh.symm
    simp [isLabelLine, h1, h2, List.isPrefixOf, hbeq]

theorem parse_header_section (c d : Char) (lit : List Char) (x : String)
    (rest : List Char) (hcd : c ≠ 'A' ∨ d ≠ 'g')
    (hlit : ∀ e ∈ c :: d :: lit, e ≠ '\n') (hx : noLabelLines x) :
    parseEntries (linesOf (((c :: d :: lit) ++ x.data) ++ '\n' :: rest)) none =
      parseEntries (linesOf rest) none := by
  obtain ⟨h0, t0, he⟩ := List.exists_cons_of_ne_nil (linesOf_ne_nil x.data)
  rw [linesOf_append_newline,
    linesOf_no_newline_append _ x.data h0 t0 hlit he]
  apply parseEntries_skip
  intro l hl
  rcases List.mem_cons.mp hl with hl | hl
  · subst hl
    rw [List.cons_append, List.cons_append]
    exact isLabelLine_cons2 c d _ hcd
  · exact hx l (by rw [he]; exact List.mem_cons_of_mem h0 hl)

theorem parse_blank (X : List Char) :
    parseEntries (linesOf ('\n' :: X)) none = parseEntries (linesOf X) none := by
  rw [linesOf_cons_newline, parseEntries, if_neg (by simp [isLabelLine_nil])]

/-- C10 counterexample: a transcript whose second message embeds a line
beginning with "Agent 1: " does not survive the round trip: exporting and
re-parsing splits that message at the embedded label. -/
theorem C10_counterexample :
    parseConversation (exportConversation "p" "" "seed" ["seed", "x\nAgent 1: y"]) ≠
      ["seed", "x\nAgent 1: y"] := by
  decide

/-- C10 (amended): exporting a transcript to the conversation file and
re-parsing its `Agent N:`-labeled entries recovers the same ordered sequence
of message contents, provided no line of the problem, additional-info or
seed fields and no line of any message begins with an agent label, and no
message ends with a newline (the script only appends stripped messages).
Without the no-embedded-label condition the round trip fails. -/
theorem C10_round_trip (p a s : String) (msgs : List String)
    (hp : noLabelLines p) (ha : noLabelLines a) (hs : noLabelLines s)
    (hm : ∀ m ∈ msgs, goodMessage m) :
    parseConversation (exportConversation p a s msgs) = msgs := by
  have d1 : ("Problem: " : String).data =
      'P' :: 'r' :: ("oblem: " : String).data := rfl
  have d2 : ("\n\nAdditional Information: " : String).data =
      '\n' :: '\n' :: 'A' :: 'd' :: ("ditional Information: " : String).data := rfl
  have d3 : ("\n\nProposed Solution: " : String).data =
      '\n' :: '\n' :: 'P' :: 'r' :: ("oposed Solution: " : String).data := rfl
  have d4 : ("\n\n" : String).data = ['\n', '\n'] := rfl
  have hdata : (exportConversation p a s msgs).data =
      ((('P' :: 'r' :: ("oblem: " : String).data) ++ p.data) ++ '\n' ::
        ('\n' :: ((('A' :: 'd' :: ("ditional Information: " : String).data) ++ a.data)
          ++ '\n' ::
          ('\n' :: ((('P' :: 'r' :: ("oposed Solution: " : String).data) ++ s.data)
            ++ '\n' ::
            ('\n' :: (convList 0 msgs).data)))))) := by
    simp [exportConversation, convHeader, String.data_append, d1, d2, d3, d4,
      List.append_assoc]
  unfold parseConversation
  rw [hdata,
    parse_header_section 'P' 'r' _ p _ (Or.inl (by decide)) (by decide) hp,
    parse_blank,
    parse_header_section 'A' 'd' _ a _ (Or.inr (by decide)) (by decide) ha,
    parse_blank,
    parse_header_section 'P' 'r' _ s _ (Or.inl (by decide)) (by decide) hs,
    parse_blank]
  exact parse_body_none 0 msgs hm

/-- Witness for C10 at a concrete transcript with a multi-line message: the
round trip is the identity. -/
theorem C10_round_trip_w :
    noLabelLines "seed" ∧ (∀ m ∈ ["seed", "hello\nworld"], goodMessage m) ∧
      parseConversation (exportConversation "p" "" "seed" ["seed", "hello\nworld"]) =
        ["seed", "hello\nworld"] :=
  ⟨by decide, by decide,
   C10_round_trip "p" "" "seed" ["seed", "hello\nworld"] (by decide) (by decide)
     (by decide) (by decide)⟩
